/-
Verification of the webextract resilient extraction pipeline.

This file gives a shallow embedding, in Lean 4, of the core components of the
webextract repository (src/webextract/core/): the JSON validator and repair
cascade (json_parser.py), the confidence scorer (confidence_scorer.py), the
content selector (scraper.py), the Ollama model orchestrator (llm_client.py)
and the extraction orchestrator (extractor.py).  External collaborators
(the json module, the regex engine, the browser/transport layers) are
modelled as explicit parameters, mirroring the interfaces the source code
consumes.  Python exceptions are modelled with `Except`; machine floats are
modelled as rationals (the properties proved here depend only on order and
clamping, not on rounding).
-/
import Mathlib

set_option maxRecDepth 100000
set_option maxHeartbeats 1000000

namespace WebExtract

/-- Python/JSON-like runtime values, as produced by `json.loads` and handled
by `json_parser.py` / `confidence_scorer.py`.  Dicts are association lists in
insertion order, mirroring Python dict semantics. -/
inductive PyVal where
  | str (s : String)
  | int (n : Int)
  | float (q : Rat)
  | bool (b : Bool)
  | none
  | list (xs : List PyVal)
  | dict (kvs : List (String × PyVal))

/-- A Python dict with string keys: an association list in insertion order. -/
abbrev PyDict := List (String × PyVal)

/-- First-match association-list lookup (`d[k]` / `k in d`). -/
def alGet? {α : Type} (l : List (String × α)) (k : String) : Option α :=
  match l with
  | [] => Option.none
  | (k', v) :: rest => if k' = k then Option.some v else alGet? rest k

/-- Python `d[k] = v`: replace the value in place if the key exists
(after the first occurrence, keys are unique in Python dicts), else append. -/
def alSet {α : Type} (l : List (String × α)) (k : String) (v : α) : List (String × α) :=
  match l with
  | [] => [(k, v)]
  | (k', v') :: rest => if k' = k then (k, v) :: rest else (k', v') :: alSet rest k v

/-- Python `d.get(k, default)`. -/
def alGetD {α : Type} (l : List (String × α)) (k : String) (dflt : α) : α :=
  (alGet? l k).getD dflt

/-- Python's whitespace classification (`str.strip` / `str.split` / `\s`):
space, tab, newline, carriage return, vertical tab, form feed. -/
def pyIsSpace (c : Char) : Bool :=
  c = ' ' ∨ c = '\t' ∨ c = '\n' ∨ c = '\r' ∨ c = '\x0b' ∨ c = '\x0c'

/-- Python `s.strip()` (kernel-computable, over code points). -/
def pyStrip (s : String) : String :=
  String.mk (((s.toList.dropWhile pyIsSpace).reverse.dropWhile pyIsSpace).reverse)

/-- Python `s.lower()` (ASCII, which is all the source compares). -/
def pyLower (s : String) : String :=
  String.mk (s.toList.map Char.toLower)

/-- Python `s[n:]` by code points. -/
def pyDrop (s : String) (n : Nat) : String := String.mk (s.toList.drop n)

/-- Python `s[:n]` by code points. -/
def pyTake (s : String) (n : Nat) : String := String.mk (s.toList.take n)

/-- The accumulator loop behind `s.split()`. -/
def splitWsGo : List Char → List Char → List String
  | [], acc => if acc.isEmpty then [] else [String.mk acc.reverse]
  | c :: cs, acc =>
    if pyIsSpace c then
      if acc.isEmpty then splitWsGo cs [] else String.mk acc.reverse :: splitWsGo cs []
    else splitWsGo cs (c :: acc)

/-- Python `s.split()` (split on whitespace runs, no empty fragments). -/
def pySplitWs (s : String) : List String := splitWsGo s.toList []

/-- Python truthiness of a value (`bool(v)`). -/
def truthy : PyVal → Bool
  | .str s => s ≠ ""
  | .int n => n ≠ 0
  | .float q => q ≠ 0
  | .bool b => b
  | .none => false
  | .list xs => !xs.isEmpty
  | .dict kvs => !kvs.isEmpty

/-- Python `len(v)`; raises `TypeError` (modelled as `.error ()`) on values
with no length. -/
def pyLen : PyVal → Except Unit Nat
  | .str s => .ok s.length
  | .list xs => .ok xs.length
  | .dict kvs => .ok kvs.length
  | _ => .error ()

/-- The expected Python type of a default-schema field (`str`, `list`, `dict`
in `json_parser.JSONValidator._validate_default_structure`). -/
inductive PyType where
  | pstr
  | plist
  | pdict
deriving Repr, DecidableEq

/-- Python `isinstance(v, t)` for the three types used by the validator. -/
def pyIsinstance : PyVal → PyType → Bool
  | .str _, .pstr => true
  | .list _, .plist => true
  | .dict _, .pdict => true
  | _, _ => false

/-- The type-appropriate empty default inserted for a missing field. -/
def typeDefault : PyType → PyVal
  | .pstr => .str ""
  | .plist => .list []
  | .pdict => .dict []

namespace JSONValidator

/-- The eight canonical fields of the default extraction structure, with their
expected types, in source order. -/
def requiredFields : List (String × PyType) :=
  [("summary", .pstr), ("topics", .plist), ("category", .pstr),
   ("sentiment", .pstr), ("entities", .pdict), ("key_facts", .plist),
   ("important_dates", .plist), ("statistics", .plist)]

/-- One iteration of the field loop of `_validate_default_structure`: insert a
missing field with its default (marking invalid), or coerce a wrong-typed
present field where safe (string to singleton list, `None` to empty string,
non-dict to empty dict), else mark invalid. -/
def fixField (acc : Bool × PyDict) (fieldName : String) (ty : PyType) : Bool × PyDict :=
  let (isValid, fd) := acc
  match alGet? fd fieldName with
  | Option.none => (false, alSet fd fieldName (typeDefault ty))
  | Option.some v =>
    if pyIsinstance v ty then (isValid, fd)
    else if ty = .plist then
      match v with
      | .str s => (isValid, alSet fd fieldName (if s ≠ "" then .list [.str s] else .list []))
      | _ => (false, fd)
    else if ty = .pstr then
      match v with
      | .none => (isValid, alSet fd fieldName (.str ""))
      | _ => (false, fd)
    else -- ty = .pdict and v is not a dict
      (isValid, alSet fd fieldName (.dict []))

/-- The entities fix-up: guarantee the three sub-lists exist and are lists. -/
def fixEntities (fd : PyDict) : PyDict :=
  match alGet? fd "entities" with
  | Option.some (.dict ents) =>
    let ents :=
      ["people", "organizations", "locations"].foldl (fun e f =>
        match alGet? e f with
        | Option.none => alSet e f (.list [])
        | Option.some v => if pyIsinstance v .plist then e else alSet e f (.list [])) ents
    alSet fd "entities" (.dict ents)
  | _ => fd

/-- Model of `JSONValidator._validate_default_structure`. -/
def validate_default_structure (data : PyDict) : Bool × PyDict :=
  let (isValid, fd) := requiredFields.foldl (fun acc p => fixField acc p.1 p.2) (true, data)
  (isValid, fixEntities fd)

/-- Model of `JSONValidator._validate_against_schema`: insert `None` for each field that
the schema declares `required` but the data lacks, marking invalid. -/
def validate_against_schema (data : PyDict) (schema : PyDict) : Bool × PyDict :=
  match alGet? schema "required" with
  | Option.some (.list req) =>
    req.foldl (fun acc r =>
      match r with
      | .str f =>
        match alGet? acc.2 f with
        | Option.none => (false, alSet acc.2 f .none)
        | Option.some _ => acc
      | _ => acc) (true, data)
  | _ => (true, data)

/-- Model of `JSONValidator.validate_and_fix`: non-dict input yields
`(False, \x7b\x7d)`; a truthy (non-empty) schema dispatches to schema
validation, else the default structure is enforced. -/
def validate_and_fix (data : PyVal) (schema : Option PyDict) : Bool × PyVal :=
  match data with
  | .dict kvs =>
    match schema with
    | Option.some skvs =>
      if !skvs.isEmpty then
        let (b, fd) := validate_against_schema kvs skvs
        (b, .dict fd)
      else
        let (b, fd) := validate_default_structure kvs
        (b, .dict fd)
    | Option.none =>
      let (b, fd) := validate_default_structure kvs
      (b, .dict fd)
  | _ => (false, .dict [])

end JSONValidator

/-- Python `isinstance(v, dict)`. -/
def PyVal.isDict : PyVal → Bool
  | .dict _ => true
  | _ => false

/-- Stable insertion into a list sorted descending by `key`. -/
def insortDesc {α : Type} (key : α → Rat) (x : α) : List α → List α
  | [] => [x]
  | y :: ys => if key x > key y then x :: y :: ys else y :: insortDesc key x ys

/-- Stable descending sort by `key`: the model of Python
`list.sort(key=..., reverse=True)` / `sorted(..., reverse=True)`. -/
def sortDesc {α : Type} (key : α → Rat) : List α → List α
  | [] => []
  | x :: xs => insortDesc key x (sortDesc key xs)

/-- Modelled from the spec: the data classes of `core/models.py` are not under
`src/`.  `ExtractedContent` follows spec section 3 (`url`, `title?`,
`description?`, `main_content`, `links`, `metadata`); `url` is optional here
because the error-record constructor in `extractor.py` omits it. -/
structure ExtractedContent where
  url : Option String := Option.none
  title : Option String
  description : Option String
  main_content : String
  links : List String
  metadata : List (String × String)

/-- Model of `confidence_scorer.ConfidenceConfig` with its source defaults
(floats as exact rationals). -/
structure ConfidenceConfig where
  base_extraction_score : Rat := 1/10
  title_weight : Rat := 1/10
  description_weight : Rat := 1/20
  content_length_thresholds : List (Nat × Rat) := [(1000, 1/5), (500, 3/20), (200, 1/10), (100, 1/20)]
  structured_data_weight : Rat := 1/5
  summary_weight : Rat := 1/10
  summary_min_length : Nat := 20
  topics_weight : Rat := 1/20
  entities_weight : Rat := 1/20
  rich_data_weight : Rat := 1/10
  rich_data_threshold : Nat := 4
  error_penalty : Rat := -(1/2)
  empty_content_penalty : Rat := -(3/10)
  max_score : Rat := 1
  min_score : Rat := 0

namespace ConfidenceScorer

/-- Python truthiness of `opt and opt.strip()` for an optional string field. -/
def optTruthyStripped : Option String → Bool
  | Option.some t => t ≠ "" && pyStrip t ≠ ""
  | Option.none => false

/-- Model of `ConfidenceScorer._score_content_length`: first threshold (descending) the
length meets. -/
def score_content_length (cfg : ConfidenceConfig) (length : Nat) : Rat :=
  match (sortDesc (fun p => (p.1 : Rat)) cfg.content_length_thresholds).find?
      (fun p => length ≥ p.1) with
  | Option.some p => p.2
  | Option.none => 0

/-- Model of `ConfidenceScorer._score_content_quality`. -/
def score_content_quality (cfg : ConfidenceConfig) (content : ExtractedContent) : Rat :=
  let s : Rat := 0
  let s := if optTruthyStripped content.title then s + cfg.title_weight else s
  let s := if optTruthyStripped content.description then s + cfg.description_weight else s
  s + score_content_length cfg content.main_content.length

/-- Model of `ConfidenceScorer._has_meaningful_entities`. -/
def has_meaningful_entities : PyVal → Bool
  | .dict kvs =>
    (kvs.foldl (fun n p =>
      match p.2 with
      | .list xs => n + xs.length
      | v => if truthy v then n + 1 else n) 0) > 0
  | _ => false

/-- Model of `ConfidenceScorer._is_field_populated`. -/
def is_field_populated : PyVal → Bool
  | .none => false
  | .str s => pyStrip s ≠ ""
  | .list xs => !xs.isEmpty
  | .dict kvs => !kvs.isEmpty
  | v => truthy v

/-- Model of `ConfidenceScorer._count_populated_fields`. -/
def count_populated_fields (info : PyDict) : Nat :=
  info.foldl (fun n p =>
    if p.1 = "error" ∨ p.1 = "extraction_error" then n
    else if is_field_populated p.2 then n + 1 else n) 0

/-- Truthiness of `structured_info.get(k)` (missing key is `None`, falsy). -/
def getFlag (info : PyDict) (k : String) : Bool :=
  match alGet? info k with
  | Option.some v => truthy v
  | Option.none => false

/-- Model of `ConfidenceScorer._score_structured_data`.  `len()` applied to a
non-sized `summary`/`topics` value raises, which propagates to the
`calculate_confidence` handler, hence the `Except`. -/
def score_structured_data (cfg : ConfidenceConfig) (info : PyDict) : Except Unit Rat :=
  if info.isEmpty then .ok 0
  else if getFlag info "error" || getFlag info "extraction_error" then .ok 0
  else
    let s := cfg.structured_data_weight
    let summary := alGetD info "summary" (.str "")
    match (if truthy summary then pyLen summary else .ok 0 : Except Unit Nat) with
    | .error e => .error e
    | .ok slen =>
      let s := if truthy summary ∧ slen ≥ cfg.summary_min_length then s + cfg.summary_weight else s
      let topics := alGetD info "topics" (.list [])
      match (if truthy topics then pyLen topics else .ok 0 : Except Unit Nat) with
      | .error e => .error e
      | .ok tlen =>
        let s := if truthy topics ∧ tlen > 0 then s + cfg.topics_weight else s
        let entities := alGetD info "entities" (.dict [])
        let s := if has_meaningful_entities entities then s + cfg.entities_weight else s
        let s := if count_populated_fields info ≥ cfg.rich_data_threshold then s + cfg.rich_data_weight else s
        .ok s

/-- Model of `ConfidenceScorer._calculate_penalties`. -/
def calculate_penalties (cfg : ConfidenceConfig) (content : ExtractedContent)
    (info : PyDict) : Rat :=
  let p : Rat := 0
  let p := if getFlag info "error" || getFlag info "extraction_error" then p + cfg.error_penalty else p
  if content.main_content = "" ∨ (pyStrip content.main_content).length < 50 then
    p + cfg.empty_content_penalty
  else p

/-- The body of the `try` block of `ConfidenceScorer.calculate_confidence`:
sum the four terms and clamp to `[min_score, max_score]`. -/
def confidenceBody (cfg : ConfidenceConfig) (content : ExtractedContent)
    (info : PyDict) : Except Unit Rat :=
  match score_structured_data cfg info with
  | .error e => .error e
  | .ok sq =>
    let total := cfg.base_extraction_score + score_content_quality cfg content + sq +
      calculate_penalties cfg content info
    .ok (max cfg.min_score (min cfg.max_score total))

/-- Model of `ConfidenceScorer.calculate_confidence`: any internal error is caught and
the configured minimum score returned. -/
def calculate_confidence (cfg : ConfidenceConfig) (content : ExtractedContent)
    (info : PyDict) : Rat :=
  match confidenceBody cfg content info with
  | .ok r => r
  | .error _ => cfg.min_score

end ConfidenceScorer

/-- External library interface consumed by `json_parser.JSONParser`: the
`json` module (`loads`, returning `none` on `JSONDecodeError`, the only
exception `json.loads` raises on a string input and the only one the caller
catches) and the `re` engine (`searchBlock pat text` is
`re.search(pat, text, DOTALL|IGNORECASE)` returning group 1;
`resub pat repl text` is `re.sub(pat, repl, text)`). -/
structure JPEnv where
  loads : String → Option PyVal
  searchBlock : String → String → Option String
  resub : String → String → String → String

/-- First non-`none` result of `f` over a list: the model of a Python
`for` loop that returns as soon as a strategy succeeds. -/
def firstSome {α β : Type} (f : α → Option β) : List α → Option β
  | [] => Option.none
  | x :: xs =>
    match f x with
    | Option.some r => Option.some r
    | Option.none => firstSome f xs

namespace JSONParser

/-- Model of `JSONParser._try_direct_parse`: strict parse, `JSONDecodeError` caught. -/
def tryDirectParse (env : JPEnv) (text : String) : Option PyVal := env.loads text

/-- The fenced-code-block patterns of `JSONParser._extract_from_markdown`. -/
def markdownPatterns : List String :=
  ["```json\\s*\\n(.*?)\\n```", "```\\s*\\n(.*?)\\n```", "```json(.*?)```", "```(.*?)```"]

/-- Model of `JSONParser._extract_from_markdown`: first pattern whose stripped match
body parses strictly. -/
def extract_from_markdown (env : JPEnv) (text : String) : Option PyVal :=
  firstSome (fun pat =>
    match env.searchBlock pat text with
    | Option.some m => tryDirectParse env (pyStrip m)
    | Option.none => Option.none) markdownPatterns

/-- The scanning loop of `JSONParser._extract_balanced_json`: walk the
characters tracking a brace counter that ignores braces inside quoted strings
(respecting escape sequences); returns the number of characters up to and
including the balancing brace. -/
def extractBalancedGo : List Char → Int → Bool → Bool → Nat → Option Nat
  | [], _, _, _, _ => Option.none
  | c :: rest, bc, inStr, esc, k =>
    if esc then extractBalancedGo rest bc inStr false (k + 1)
    else if c = '\\' ∧ inStr then extractBalancedGo rest bc inStr true (k + 1)
    else if c = '"' then extractBalancedGo rest bc (!inStr) esc (k + 1)
    else if !inStr then
      let bc' := if c = '\x7b' then bc + 1 else if c = '\x7d' then bc - 1 else bc
      if bc' = 0 then Option.some (k + 1)
      else extractBalancedGo rest bc' inStr esc (k + 1)
    else extractBalancedGo rest bc inStr esc (k + 1)

/-- Model of `JSONParser._extract_balanced_json`. -/
def extract_balanced_json (text : String) (start : Nat) : Option String :=
  match text.toList.drop start with
  | [] => Option.none
  | c :: rest =>
    if c ≠ '\x7b' then Option.none
    else
      match extractBalancedGo (c :: rest) 0 false false 0 with
      | Option.some n => Option.some (String.mk ((c :: rest).take n))
      | Option.none => Option.none

/-- The indices of every opening brace in the text
(the start positions tried by `_extract_with_bracket_matching`). -/
def bracketStartPositions (text : String) : List Nat :=
  (text.toList.enum.filter (fun p => p.2 = '\x7b')).map (·.1)

/-- Model of `JSONParser._extract_with_bracket_matching`. -/
def extract_with_bracket_matching (env : JPEnv) (text : String) : Option PyVal :=
  firstSome (fun start =>
    match extract_balanced_json text start with
    | Option.some jt => tryDirectParse env jt
    | Option.none => Option.none) (bracketStartPositions text)

/-- Python `text.rfind(c)` (as `none` for `-1`). -/
def rfindChar (text : String) (c : Char) : Option Nat :=
  ((text.toList.enum.filter (fun p => p.2 = c)).map (·.1)).getLast?

/-- Model of `JSONParser._find_json_candidates`: for every `\x7b` position, the slice
up to the last `\x7d` of the text, when that lies further right. -/
def find_json_candidates (text : String) : List String :=
  match rfindChar text '\x7d' with
  | Option.none => []
  | Option.some e =>
    (bracketStartPositions text).filterMap (fun s =>
      if e > s then Option.some (String.mk ((text.toList.drop s).take (e + 1 - s)))
      else Option.none)

/-- The known prefaces stripped by `JSONParser._repair_json`. -/
def prefixesToRemove : List String :=
  ["JSON:", "Response:", "Output:", "Result:", "Here is the JSON:",
   "The extracted information is:", "Based on the content:"]

/-- The preface-stripping loop of `_repair_json` (case-insensitive). -/
def stripPrefaces (jt : String) : String :=
  prefixesToRemove.foldl (fun t p =>
    if (pyLower p).toList.isPrefixOf (pyLower t).toList then pyStrip (pyDrop t p.length) else t) jt

/-- Model of `_repair_json`: drop trailing text after the last closing brace. -/
def truncAfterLastRBrace (jt : String) : String :=
  match rfindChar jt '\x7d' with
  | Option.some l => String.mk (jt.toList.take (l + 1))
  | Option.none => jt

/-- The regex substitutions of `_repair_json`, in order: trailing-comma
removal, unescaped-quote fixing, unquoted-key quoting, single-to-double-quote
normalization, whitespace collapsing. -/
def repairSubs : List (String × String) :=
  [(",(\\s*[\x7d\\]])", "\\1"),
   (":\\s*\"([^\"]*)\"([^\",\\]\x7d]*)\"", ": \"\\1\\2\""),
   ("(\\w+):", "\"\\1\":"),
   ("\x27([^\x27]*)\x27", "\"\\1\""),
   ("\\s+", " ")]

/-- Model of `JSONParser._repair_json`. -/
def repair_json (env : JPEnv) (jt0 : String) : String :=
  let jt := stripPrefaces jt0
  let jt := truncAfterLastRBrace jt
  pyStrip (repairSubs.foldl (fun t p => env.resub p.1 p.2 t) jt)

/-- Model of `JSONParser._extract_with_repair`. -/
def extract_with_repair (env : JPEnv) (text : String) : Option PyVal :=
  firstSome (fun cand =>
    let repaired := repair_json env cand
    if repaired ≠ "" then tryDirectParse env repaired else Option.none)
    (find_json_candidates text)

/-- Model of `JSONParser.parse_response`: the four-strategy repair cascade.  Empty or
whitespace-only input short-circuits to `none`. -/
def parse_response (env : JPEnv) (text : String) : Option PyVal :=
  if text = "" ∨ pyStrip text = "" then Option.none
  else
    match tryDirectParse env (pyStrip text) with
    | Option.some r => Option.some r
    | Option.none =>
      match extract_from_markdown env text with
      | Option.some r => Option.some r
      | Option.none =>
        match extract_with_bracket_matching env text with
        | Option.some r => Option.some r
        | Option.none => extract_with_repair env text

end JSONParser

/-- A degenerate concrete library environment for the parser (a `loads` that
always fails, a search that never matches, an identity `re.sub`). -/
def jpEnv0 : JPEnv :=
  { loads := fun _ => Option.none
    searchBlock := fun _ _ => Option.none
    resub := fun _ _ t => t }

/-- External interface consumed by `llm_client.OllamaClient`: the ollama
transport (`generate i` is the `response` text of the `i`-th generation call
of a request, `.error ()` a raised transport exception), the `json` module,
the `re` engine at the fixed patterns of `_parse_json_response` /
`_clean_json_text` (`searchNestedJson` is the nested-object search of
strategy 2, `stripMarkdownFences` the two fence-removing substitutions,
`subTrailingCommas` the two trailing-comma substitutions,
`fixStringEscapes` the string-newline-escaping substitution), and the
Python builtin `str`. -/
structure LlmEnv where
  generate : Nat → Except Unit String
  loads : String → Option PyVal
  searchNestedJson : String → Option String
  stripMarkdownFences : String → String
  subTrailingCommas : String → String
  fixStringEscapes : String → String
  pyStr : PyVal → String

namespace OllamaClient

/-- The value `settings.LLM_RETRY_ATTEMPTS`: `LLMConfig.retry_attempts`, default 3. -/
def retryAttempts : Nat := 3

/-- Python `text.find(c)` (as `none` for `-1`). -/
def findChar (text : String) (c : Char) : Option Nat :=
  ((text.toList.enum.filter (fun p => p.2 = c)).map (·.1)).head?

/-- Model of `OllamaClient._clean_json_text`: strip markdown fences, slice between the
first opening and last closing brace, remove trailing commas, escape raw
newlines inside strings. -/
def cleanJsonText (env : LlmEnv) (text0 : String) : Option String :=
  let text := pyStrip (env.stripMarkdownFences text0)
  match findChar text '\x7b', JSONParser.rfindChar text '\x7d' with
  | Option.some s, Option.some e =>
    if e ≤ s then Option.none
    else
      let jt := String.mk ((text.toList.drop s).take (e + 1 - s))
      let jt := env.subTrailingCommas jt
      Option.some (env.fixStringEscapes jt)
  | _, _ => Option.none

/-- Model of `OllamaClient._parse_json_response`: direct parse, then nested-object
regex extraction, then clean-and-parse; every `JSONDecodeError` caught. -/
def parseJsonResponse (env : LlmEnv) (responseText : String) : Option PyVal :=
  if responseText = "" then Option.none
  else
    match env.loads responseText with
    | Option.some r => Option.some r
    | Option.none =>
      match (match env.searchNestedJson responseText with
             | Option.some m => env.loads m
             | Option.none => Option.none) with
      | Option.some r => Option.some r
      | Option.none =>
        match cleanJsonText env responseText with
        | Option.some c => if c ≠ "" then env.loads c else Option.none
        | Option.none => Option.none

/-- The expected default structure of `OllamaClient._validate_extraction_result`
(its own copy, distinct from the validator's). -/
def expectedStructure : List (String × PyType) :=
  [("summary", .pstr), ("topics", .plist), ("category", .pstr),
   ("sentiment", .pstr), ("entities", .pdict), ("key_facts", .plist),
   ("important_dates", .plist), ("statistics", .plist)]

/-- One in-place coercion of `_validate_extraction_result`: wrong-typed
present fields are fixed for the safe cases (string to singleton list,
`None` to empty string); anything else is only logged. -/
def coerceField (r : PyDict) (f : String) (ty : PyType) : PyDict :=
  match alGet? r f with
  | Option.none => r
  | Option.some v =>
    if pyIsinstance v ty then r
    else if ty = .plist then
      match v with
      | .str s => alSet r f (if s ≠ "" then .list [.str s] else .list [])
      | _ => r
    else if ty = .pstr then
      match v with
      | .none => alSet r f (.str "")
      | _ => r
    else r

/-- The loop of `OllamaClient._validate_against_schema`: a missing schema key
fails immediately; present keys are coerced toward the schema value's type. -/
def schemaCoerceGo (env : LlmEnv) : List (String × PyVal) → PyDict → Bool × PyDict
  | [], r => (true, r)
  | (k, v) :: rest, r =>
    match alGet? r k with
    | Option.none => (false, r)
    | Option.some rv =>
      let r :=
        match v with
        | .str _ =>
          if pyIsinstance rv .pstr then r
          else alSet r k (.str (match rv with | .none => "" | _ => env.pyStr rv))
        | .list _ =>
          if pyIsinstance rv .plist then r
          else alSet r k (if truthy rv then .list [rv] else .list [])
        | .dict _ => if pyIsinstance rv .pdict then r else alSet r k (.dict [])
        | _ => r
      schemaCoerceGo env rest r

/-- The default branch of `_validate_extraction_result`: require a truthy
`summary`, then apply the safe in-place type fixes (validity is not affected
by unfixable mismatches, which are only logged). -/
def validateDefaultResult (r : PyDict) : Bool × PyVal :=
  if !(match alGet? r "summary" with
       | Option.some v => truthy v
       | Option.none => false) then (false, .dict r)
  else
    (true, .dict (expectedStructure.foldl (fun acc p => coerceField acc p.1 p.2) r))

/-- Model of `OllamaClient._validate_extraction_result` together with the in-place
fixes it applies to the result it validates (the caller returns the mutated
result object). -/
def validate_extraction_result (env : LlmEnv) (result : PyVal)
    (schema : Option PyDict) : Bool × PyVal :=
  match result with
  | .dict r =>
    match schema with
    | Option.some s =>
      if !s.isEmpty then
        let (b, r') := schemaCoerceGo env s r
        (b, .dict r')
      else validateDefaultResult r
    | Option.none => validateDefaultResult r
  | _ => (false, result)

/-- Model of `OllamaClient._create_safe_fallback`. -/
def create_safe_fallback (contentPreview : String) : PyVal :=
  .dict [("summary", .str ("Content extraction failed. Preview: " ++ contentPreview ++ "...")),
    ("topics", .list []), ("category", .str "unknown"), ("sentiment", .str "neutral"),
    ("entities", .dict [("people", .list []), ("organizations", .list []),
      ("locations", .list [])]),
    ("key_facts", .list []), ("important_dates", .list []), ("statistics", .list []),
    ("extraction_error", .bool true)]

/-- The value the `i`-th generation attempt would return, if any: transport
success, parse success, truthy result, and validation success. -/
def attemptValue (env : LlmEnv) (schema : Option PyDict) (i : Nat) : Option PyVal :=
  match env.generate i with
  | .error _ => Option.none
  | .ok t =>
    match parseJsonResponse env (pyStrip t) with
    | Option.some r =>
      let vr := validate_extraction_result env r schema
      if truthy r && vr.1 then Option.some vr.2 else Option.none
    | Option.none => Option.none

/-- The attempt loop of `OllamaClient.generate_structured_data`: return the
first valid result, else the safe fallback over a 200-character preview of
the input.  (The source returns the fallback directly from the exception
handler of the final attempt; with an empty remaining schedule that is the
same value the loop exit produces, so the body is factored through
`attemptValue`.) -/
def genLoop (env : LlmEnv) (schema : Option PyDict) (content : String) :
    List Nat → PyVal
  | [] => create_safe_fallback (pyTake content 200)
  | i :: rest =>
    match attemptValue env schema i with
    | Option.some v => v
    | Option.none => genLoop env schema content rest

/-- Model of `OllamaClient.generate_structured_data`.  The prompt built from the
(truncated) content, the custom prompt and the schema only parametrises the
transport, which is abstract here; the custom prompt is therefore unused. -/
def generate_structured_data (env : LlmEnv) (content : String)
    (_customPrompt : Option String) (schema : Option PyDict) : PyVal :=
  genLoop env schema content (List.range retryAttempts)

end OllamaClient

/-- Field access on a dict value (`v[k]` when `v` is a mapping). -/
def pyGetField (v : PyVal) (k : String) : Option PyVal :=
  match v with
  | .dict kvs => alGet? kvs k
  | _ => Option.none

/-- A concrete transport environment whose every generation call raises. -/
def llmEnvFail : LlmEnv :=
  { generate := fun _ => .error ()
    loads := fun _ => Option.none
    searchNestedJson := fun _ => Option.none
    stripMarkdownFences := id
    subTrailingCommas := id
    fixStringEscapes := id
    pyStr := fun _ => "" }

/-- The typed exceptions of `core/exceptions.py` that the content-extraction
paths of `scraper.py` can carry. -/
inductive ScrapeErr where
  | contentTooLarge (size limit : Nat)
  | extractionError (msg : String)
  | scrapingError (msg : String)
  | invalidUrl (msg : String)
deriving Repr, DecidableEq

mutual
/-- A parsed document-tree node (the BeautifulSoup tree consumed by
`ContentExtractor`): a text node or an element with a tag, attributes and
children. -/
inductive HNode where
  | text (s : String)
  | elem (tag : String) (attrs : List (String × String)) (children : HForest)
/-- A list of sibling nodes (a separate inductive so that all tree recursion
is structural). -/
inductive HForest where
  | nil
  | cons (h : HNode) (t : HForest)
end

/-- Build a forest from a list of nodes. -/
def HForest.ofList : List HNode → HForest
  | [] => .nil
  | n :: ns => .cons n (HForest.ofList ns)

mutual
/-- Every element of a node's subtree, itself included when it is an element,
in document (pre-)order. -/
def nodeElems : HNode → List HNode
  | .text _ => []
  | .elem t a cs => .elem t a cs :: forestElems cs
/-- Every element in a forest, in document order. -/
def forestElems : HForest → List HNode
  | .nil => []
  | .cons c cs => nodeElems c ++ forestElems cs
end

/-- BeautifulSoup `node.find_all(...)`: all matching elements among the
strict descendants (for the document root this is every element). -/
def findAll (p : HNode → Bool) (n : HNode) : List HNode :=
  match n with
  | .text _ => []
  | .elem _ _ cs => (forestElems cs).filter p

mutual
/-- The text-node strings of a subtree, in document order. -/
def textStrings : HNode → List String
  | .text s => [s]
  | .elem _ _ cs => forestTextStrings cs
/-- The text-node strings of a forest, in document order. -/
def forestTextStrings : HForest → List String
  | .nil => []
  | .cons c cs => textStrings c ++ forestTextStrings cs
end

/-- BeautifulSoup `get_text(separator=" ", strip=True)`: each string stripped,
whitespace-only strings dropped, joined by single spaces. -/
def getTextSep (n : HNode) : String :=
  String.intercalate " " (((textStrings n).map pyStrip).filter (fun t => t ≠ ""))

/-- BeautifulSoup `get_text(strip=True)`: each string stripped, whitespace-only
strings dropped, concatenated. -/
def getTextStrip (n : HNode) : String :=
  String.join (((textStrings n).map pyStrip).filter (fun t => t ≠ ""))

/-- Substring test on character lists. -/
def listContains (pat : List Char) : List Char → Bool
  | [] => pat.isEmpty
  | c :: cs => pat.isPrefixOf (c :: cs) || listContains pat cs

/-- Case-insensitive substring match: the effect of
`re.compile(pattern, re.I).search(s)` for the literal patterns the scraper
uses. -/
def containsCI (pat s : String) : Bool :=
  listContains (pyLower pat).toList (pyLower s).toList

/-- The whitespace-separated class tokens of an element (BeautifulSoup
multi-valued `class`). -/
def elemClasses (n : HNode) : List String :=
  match n with
  | .elem _ attrs _ =>
    match alGet? attrs "class" with
    | Option.some c => pySplitWs c
    | Option.none => []
  | .text _ => []

/-- BeautifulSoup `find_all(class_=re.compile(pat, re.I))`: some class token
matches the pattern. -/
def classMatches (pat : String) (n : HNode) : Bool :=
  (elemClasses n).any (fun c => containsCI pat c)

/-- BeautifulSoup `find_all(id=re.compile(pat, re.I))`. -/
def idMatches (pat : String) (n : HNode) : Bool :=
  match n with
  | .elem _ attrs _ =>
    match alGet? attrs "id" with
    | Option.some i => containsCI pat i
    | Option.none => false
  | .text _ => false

/-- Tag equality test for `find_all(tag)`. -/
def tagIs (t : String) (n : HNode) : Bool :=
  match n with
  | .elem tg _ _ => tg = t
  | .text _ => false

/-- Tag membership test for `find_all([t1, ..., tk])`. -/
def tagIn (ts : List String) (n : HNode) : Bool :=
  match n with
  | .elem tg _ _ => ts.contains tg
  | .text _ => false

mutual
/-- BeautifulSoup `elem.decompose()` applied to every matching element of a subtree:
matching elements are removed together with their whole subtree. -/
def removeNodes (p : HNode → Bool) : HNode → HNode
  | .text s => .text s
  | .elem t a cs => .elem t a (removeNodesForest p cs)
/-- Removal over a forest. -/
def removeNodesForest (p : HNode → Bool) : HForest → HForest
  | .nil => .nil
  | .cons c cs =>
    match c with
    | .text s => .cons (.text s) (removeNodesForest p cs)
    | .elem t a k =>
      if p (.elem t a k) then removeNodesForest p cs
      else .cons (.elem t a (removeNodesForest p k)) (removeNodesForest p cs)
end

/-- Model of `config.ScrapingConfig` (the field the content selector reads), with its
source default. -/
structure ScrapingCfg where
  max_content_length : Nat := 10000

namespace ContentExtractor

/-- The tag denylist of `_clean_text_from_element`. -/
def unwantedTags : List String :=
  ["script", "style", "noscript", "iframe", "embed", "object", "nav", "aside",
   "footer", "header", "advertisement", "ads"]

/-- The class/id-substring denylist of `_clean_text_from_element`. -/
def unwantedClasses : List String :=
  ["advertisement", "ads", "sidebar", "navigation", "nav", "footer", "header",
   "menu", "social", "share", "comment"]

/-- Python `re.sub(r"\s+", " ", text).strip()`. -/
def normalizeWs (s : String) : String := String.intercalate " " (pySplitWs s)

/-- The max-content-length check shared by `_clean_text_from_element` and
`_extract_body_text`: raise `ContentTooLargeError` past the configured
limit, else return the text. -/
def lengthGuard (cfg : ScrapingCfg) (text : String) : Except ScrapeErr String :=
  if text.length > cfg.max_content_length then
    .error (.contentTooLarge text.length cfg.max_content_length)
  else .ok text

/-- Model of `ContentExtractor._clean_text_from_element`: strip the unwanted tags and
classes, flatten to whitespace-normalized text, and raise
`ContentTooLargeError` when the configured limit is exceeded. -/
def clean_text_from_element (cfg : ScrapingCfg) (element : HNode) :
    Except ScrapeErr String :=
  lengthGuard cfg (normalizeWs (getTextSep
    (unwantedClasses.foldl (fun n cls => removeNodes (classMatches cls) n)
      (unwantedTags.foldl (fun n t => removeNodes (tagIs t) n) element))))

/-- The semantic HTML5 tags of the first pass. -/
def semanticTags : List String := ["main", "article"]

/-- The content-indicating class/id patterns of the first pass. -/
def contentPatterns : List String :=
  ["content", "main-content", "article-content", "post-content",
   "entry-content", "story", "body-content"]

/-- One candidate step of `_extract_semantic_content`: clean the element and
keep it when its text exceeds 50 characters. -/
def addCandidate (cfg : ScrapingCfg) (acc : List (Nat × String)) (el : HNode) :
    Except ScrapeErr (List (Nat × String)) :=
  match clean_text_from_element cfg el with
  | .error e => .error e
  | .ok content =>
    .ok (if content.length > 50 then acc ++ [(content.length, content)] else acc)

/-- The candidate-collection loop. -/
def candLoop (cfg : ScrapingCfg) :
    List HNode → List (Nat × String) → Except ScrapeErr (List (Nat × String))
  | [], acc => .ok acc
  | el :: els, acc =>
    match addCandidate cfg acc el with
    | .error e => .error e
    | .ok acc' => candLoop cfg els acc'

/-- The elements collected by the semantic-tag pass, in loop order. -/
def semanticElems (soup : HNode) : List HNode :=
  semanticTags.flatMap (fun t => findAll (tagIs t) soup)

/-- The elements collected by the class/id-pattern pass, in loop order
(classes before ids for each pattern, mirroring `elements.extend`). -/
def patternElems (soup : HNode) : List HNode :=
  contentPatterns.flatMap (fun pat =>
    findAll (classMatches pat) soup ++ findAll (idMatches pat) soup)

/-- All `(length, text)` candidates of `_extract_semantic_content`, in
collection order. -/
def semanticCandidates (cfg : ScrapingCfg) (soup : HNode) :
    Except ScrapeErr (List (Nat × String)) :=
  match candLoop cfg (semanticElems soup) [] with
  | .error e => .error e
  | .ok c1 => candLoop cfg (patternElems soup) c1

/-- Model of `ContentExtractor._extract_semantic_content`: sort the candidates by
length, descending, and return the longest; empty string when none. -/
def extract_semantic_content (cfg : ScrapingCfg) (soup : HNode) :
    Except ScrapeErr String :=
  match semanticCandidates cfg soup with
  | .error e => .error e
  | .ok cands =>
    match sortDesc (fun p => (p.1 : Rat)) cands with
    | [] => .ok ""
    | c :: _ => .ok c.2

/-- Model of `ContentExtractor._score_content_container`. -/
def score_content_container (container : HNode) : Rat :=
  let text := getTextStrip container
  let score : Rat := (text.length : Rat) * (1/10)
  let score := score + ((findAll (tagIs "p") container).length : Rat) * 10
  let score := score +
    ((findAll (tagIn ["h1", "h2", "h3", "h4", "h5", "h6"]) container).length : Rat) * 5
  let score := score -
    ((findAll (tagIn ["nav", "aside", "footer", "header"]) container).length : Rat) * 20
  let links := (findAll (tagIs "a") container).length
  let words := max (pySplitWs text).length 1
  let score := if ((links : Rat) / (words : Rat)) > 1/10 then score * (1/2) else score
  max 0 score

/-- The tag denylist of `_extract_body_text`. -/
def bodyUnwantedTags : List String :=
  ["script", "style", "noscript", "iframe", "embed", "object", "nav", "aside",
   "footer", "header", "form"]

/-- The meaningful-content tags of `_extract_body_text`. -/
def meaningfulTags : List String :=
  ["p", "h1", "h2", "h3", "h4", "h5", "h6", "li", "blockquote", "article", "section"]

/-- Model of `ContentExtractor._extract_body_text`: heavy filtering of the body,
keeping only substantial fragments of meaningful elements. -/
def extract_body_text (cfg : ScrapingCfg) (body : HNode) : Except ScrapeErr String :=
  lengthGuard cfg (normalizeWs (String.intercalate " "
    (((findAll (tagIn meaningfulTags)
        (bodyUnwantedTags.foldl (fun n t => removeNodes (tagIs t) n) body)).map
          getTextStrip).filter (fun t => t.length > 20))))

/-- Model of `ContentExtractor._extract_content_blocks`: density-score every container,
clean the best positive one, else fall back to filtered body text. -/
def extract_content_blocks (cfg : ScrapingCfg) (soup : HNode) : Except ScrapeErr String :=
  match sortDesc (fun p => p.1)
      (((findAll (tagIn ["div", "section", "article", "main"]) soup).map
          (fun c => (score_content_container c, c))).filter (fun p => p.1 > 0)) with
  | best :: _ => clean_text_from_element cfg best.2
  | [] =>
    extract_body_text cfg
      (match findAll (tagIs "body") soup with
       | b :: _ => b
       | [] => soup)

/-- The main-content selection of `ContentExtractor.extract_content`
(its first two statements): the semantic pass, then the density fallback when
it yields fewer than 100 characters. -/
def selectMainContent (cfg : ScrapingCfg) (soup : HNode) : Except ScrapeErr String :=
  match extract_semantic_content cfg soup with
  | .error e => .error e
  | .ok mc => if mc.length < 100 then extract_content_blocks cfg soup else .ok mc

end ContentExtractor

/-- Whether an exception is a `ContentTooLargeError`. -/
def ScrapeErr.isCTL : ScrapeErr → Bool
  | .contentTooLarge _ _ => true
  | _ => false

/-- The result is a value or a raised `ContentTooLargeError` (the only
exception the content-selection paths construct). -/
def okOrCTL {α : Type} : Except ScrapeErr α → Prop
  | .ok _ => True
  | .error e => e.isCTL = true

/-- A 40-character text block. -/
def strMain40 : String := String.mk (List.replicate 40 'a')

/-- A 600-character text block. -/
def strArt600 : String := String.mk (List.replicate 600 'b')

/-- Concrete scenario B of the spec: a `main` of 40 characters next to a
`div class="article-content"` of 600 characters. -/
def scenarioB : HNode :=
  .elem "html" [] (.ofList
    [.elem "body" [] (.ofList
      [.elem "main" [] (.ofList [.text strMain40]),
       .elem "div" [("class", "article-content")] (.ofList [.text strArt600])])])

/-- A 60-character text block. -/
def strSixty : String := String.mk (List.replicate 60 'c')

/-- A tree whose only semantic candidate holds 60 characters of text. -/
def soupOversize : HNode :=
  .elem "html" [] (.ofList [.elem "main" [] (.ofList [.text strSixty])])

/-- An empty document. -/
def soupEmptyDoc : HNode := .elem "html" [] .nil

/-- Modelled from the spec: the data classes of `core/models.py` are not under
`src/`.  `StructuredData` is the `ExtractionRecord` of spec section 3:
`url`, `extracted_at`, `content`, `structured_info`, `confidence`. -/
structure StructuredData where
  url : String
  extracted_at : String
  content : ExtractedContent
  structured_info : PyDict
  confidence : Rat

/-- The per-URL result cache of `DataExtractor` (`self._extraction_cache`). -/
abbrev Cache := List (String × StructuredData)

/-- The typed exceptions of `core/exceptions.py` handled at the `extract`
boundary, plus the untyped remainder caught by its generic handler. -/
inductive ExtractErr where
  | extraction (msg : String)
  | scraping (msg : String)
  | llm (msg : String)
  | configuration (msg : String)
  | unexpected (msg : String)
deriving Repr, DecidableEq

/-- Python `str(e)` for the exceptions above. -/
def ExtractErr.message : ExtractErr → String
  | .extraction m => m
  | .scraping m => m
  | .llm m => m
  | .configuration m => m
  | .unexpected m => m

/-- The message stored by the `extract` boundary handlers: the four typed
errors keep `str(e)`; the generic `Exception` handler prepends the
`Unexpected error: ` prefix. -/
def boundaryMessage : ExtractErr → String
  | .unexpected m => "Unexpected error: " ++ m
  | e => e.message

/-- External collaborators consumed by `extractor.DataExtractor`: the stdlib
`urlparse` (scheme and netloc), the LLM client's availability check (which may
itself raise), `WebScraper.scrape` (which may raise any error or return
`None`), the LLM client's `extract_with_schema` / `generate_structured_data`
dispatch on the prepared content, plus the configured confidence scorer, the
configured model name, and the clock. -/
structure ExtractorEnv where
  urlparse : String → String × String
  modelName : String
  isModelAvailable : Except String Bool
  scraperScrape : String → Except ExtractErr (Option ExtractedContent)
  llmCall : String → Option PyDict → Except ExtractErr PyDict
  confCfg : ConfidenceConfig
  now : String

namespace DataExtractor

/-- Model of `DataExtractor._validate_url`: scheme and netloc both present. -/
def validate_url (env : ExtractorEnv) (url : String) : Bool :=
  ((env.urlparse url).1 ≠ "") && ((env.urlparse url).2 ≠ "")

/-- Model of `DataExtractor._scrape_content`: `ScrapingError` passes through, any
other exception is wrapped into one. -/
def scrape_content (env : ExtractorEnv) (url : String) :
    Except ExtractErr (Option ExtractedContent) :=
  match env.scraperScrape url with
  | .ok c => .ok c
  | .error (.scraping m) => .error (.scraping m)
  | .error e => .error (.scraping ("Web scraping failed for " ++ url ++ ": " ++ e.message))

/-- Model of `DataExtractor._prepare_content_for_llm`. -/
def prepare_content_for_llm (c : ExtractedContent) : String :=
  String.intercalate "\n\n"
    ((match c.title with
      | Option.some t => if t ≠ "" then ["TITLE: " ++ t] else []
      | Option.none => []) ++
     (match c.description with
      | Option.some d => if d ≠ "" then ["DESCRIPTION: " ++ d] else []
      | Option.none => []) ++
     (["CONTENT: " ++ c.main_content]) ++
     (match alGet? c.metadata "og_title" with
      | Option.some v => if v ≠ "" then ["OG_TITLE: " ++ v] else []
      | Option.none => []))

/-- Model of `DataExtractor._process_with_llm`: `LLMError` passes through, any other
exception is wrapped into one. -/
def process_with_llm (env : ExtractorEnv) (content : ExtractedContent)
    (schema : Option PyDict) : Except ExtractErr PyDict :=
  match env.llmCall (prepare_content_for_llm content) schema with
  | .ok d => .ok d
  | .error (.llm m) => .error (.llm m)
  | .error e => .error (.llm ("LLM processing failed: " ++ e.message))

/-- The identical re-wrapping around the `_process_with_llm` call inside
`extract` itself. -/
def processWithLlmBoundary (env : ExtractorEnv) (content : ExtractedContent)
    (schema : Option PyDict) : Except ExtractErr PyDict :=
  match process_with_llm env content schema with
  | .ok d => .ok d
  | .error (.llm m) => .error (.llm m)
  | .error e => .error (.llm ("LLM processing failed: " ++ e.message))

/-- Model of `DataExtractor._create_error_result`. -/
def create_error_result (env : ExtractorEnv) (url msg : String) : StructuredData :=
  { url := url
    extracted_at := env.now
    content :=
      { url := Option.none, title := Option.none, description := Option.none,
        main_content := "Extraction failed: " ++ msg, links := [],
        metadata := [("error", msg)] }
    structured_info :=
      [("error", .str msg),
       ("summary", .str ("Failed to extract content: " ++ msg)),
       ("extraction_error", .bool true)]
    confidence := 0 }

/-- The body of the `try` block of `DataExtractor.extract`: validate the URL,
consult the cache, check model availability, scrape, run the LLM, score, and
cache the record when its confidence exceeds 0.3. -/
def extractBody (env : ExtractorEnv) (cache : Cache) (url : String)
    (schema : Option PyDict) (forceRefresh : Bool) :
    Except ExtractErr (StructuredData × Cache) :=
  if !validate_url env url then .error (.extraction ("Invalid URL format: " ++ url))
  else
    match (if !forceRefresh then alGet? cache url else Option.none) with
    | Option.some r => .ok (r, cache)
    | Option.none =>
      match env.isModelAvailable with
      | .error m => .error (.llm ("Cannot verify model availability: " ++ m))
      | .ok avail =>
        if !avail then .error (.llm ("Model " ++ env.modelName ++ " is not available"))
        else
          match scrape_content env url with
          | .error e => .error e
          | .ok Option.none => .error (.scraping ("Failed to scrape content from " ++ url))
          | .ok (Option.some content) =>
            match processWithLlmBoundary env content schema with
            | .error e => .error e
            | .ok info =>
              let conf := ConfidenceScorer.calculate_confidence env.confCfg content info
              let result : StructuredData :=
                { url := url, extracted_at := env.now, content := content,
                  structured_info := info, confidence := conf }
              .ok (result, if conf > 3/10 then alSet cache url result else cache)

/-- Model of `DataExtractor.extract`: the single boundary converting every raised
error into a degraded, confidence-zero record; the cache is left untouched on
that path. -/
def extract (env : ExtractorEnv) (cache : Cache) (url : String)
    (schema : Option PyDict) (forceRefresh : Bool) : StructuredData × Cache :=
  match extractBody env cache url schema forceRefresh with
  | .ok rc => rc
  | .error e => (create_error_result env url (boundaryMessage e), cache)

/-- The worker loop of `DataExtractor.extract_batch`, sequentialised: slot `i`
holds the record `extract` returns for URL `i` (the `except` arm that stores
`None` fires only when the submitted `extract` call itself raised, which
`extract` never does). -/
def extract_batch_go (env : ExtractorEnv) (schema : Option PyDict) :
    Cache → List String → List (Option StructuredData)
  | _, [] => []
  | cache, url :: rest =>
    Option.some (extract env cache url schema false).1 ::
      extract_batch_go env schema (extract env cache url schema false).2 rest

/-- Model of `DataExtractor.extract_batch`. -/
def extract_batch (env : ExtractorEnv) (cache : Cache) (urls : List String)
    (schema : Option PyDict) : List (Option StructuredData) :=
  extract_batch_go env schema cache urls

/-- Model of `DataExtractor.clear_cache`. -/
def clear_cache (_cache : Cache) : Cache := []

end DataExtractor

/-- The cache invariant of claim C9: every cached record has confidence
above 0.3. -/
def cacheInv (cache : Cache) : Prop := ∀ p ∈ cache, (3/10 : Rat) < p.2.confidence

/-- A concrete collaborator environment whose URL parser yields no scheme or
netloc (every extraction fails validation). -/
def extractorEnvStub : ExtractorEnv :=
  { urlparse := fun _ => ("", "")
    modelName := "llama3.2"
    isModelAvailable := .ok true
    scraperScrape := fun _ => .ok Option.none
    llmCall := fun _ _ => .ok []
    confCfg := {}
    now := "2024-01-01T00:00:00" }

/-- A stub page content of 60 characters with a title. -/
def contentStub : ExtractedContent :=
  { url := Option.some "http://u", title := Option.some "Title",
    description := Option.none, main_content := strSixty, links := [], metadata := [] }

/-- Concrete scenario E of the spec: collaborators for which the fetch of
`http://u3` always times out while every other URL succeeds. -/
def envBatch : ExtractorEnv :=
  { urlparse := fun _ => ("http", "example.com")
    modelName := "llama3.2"
    isModelAvailable := .ok true
    scraperScrape := fun url =>
      if url = "http://u3" then .error (.scraping "Timeout while fetching page")
      else .ok (Option.some contentStub)
    llmCall := fun _ _ => .ok [("summary", .str "a fine summary of the page content")]
    confCfg := {}
    now := "2024-01-01T00:00:00" }

/-- The five URLs of scenario E. -/
def urls5 : List String := ["http://u1", "http://u2", "http://u3", "http://u4", "http://u5"]

/-! ## Theorems -/

/-- Claim C4: `validate_and_fix` applied to the empty mapping with no schema
returns `is_valid = false` and a value holding all eight default fields with
their type-appropriate empty defaults, the `entities` field holding the three
empty sub-lists `people`, `organizations`, `locations`. -/
theorem validate_and_fix_empty_default :
    JSONValidator.validate_and_fix (.dict []) Option.none =
      (false, .dict [("summary", .str ""), ("topics", .list []), ("category", .str ""),
        ("sentiment", .str ""),
        ("entities", .dict [("people", .list []), ("organizations", .list []),
          ("locations", .list [])]),
        ("key_facts", .list []), ("important_dates", .list []), ("statistics", .list [])]) :=
  rfl

/-- Claim C10: for every input value that is not a mapping, `validate_and_fix`
returns `is_valid = false` together with an empty mapping, for any schema. -/
theorem validate_and_fix_non_dict (v : PyVal) (schema : Option PyDict)
    (h : v.isDict = false) :
    JSONValidator.validate_and_fix v schema = (false, .dict []) := by
  cases v <;> simp_all [JSONValidator.validate_and_fix, PyVal.isDict]

/-- Witness for C10 at the concrete non-mapping input `"x"`. -/
theorem validate_and_fix_non_dict_witness :
    (PyVal.str "x").isDict = false ∧
      JSONValidator.validate_and_fix (.str "x") Option.none = (false, .dict []) :=
  ⟨rfl, validate_and_fix_non_dict (.str "x") Option.none rfl⟩

/-- Claim C5: with the default configuration, the confidence scorer returns a
score in `[0, 1]` for every content value and every structured-result mapping
(it is a pure function, and the internal-error handler returns the minimum
score, which is itself in range). -/
theorem calculate_confidence_bounds (content : ExtractedContent) (info : PyDict) :
    0 ≤ ConfidenceScorer.calculate_confidence {} content info ∧
      ConfidenceScorer.calculate_confidence {} content info ≤ 1 := by
  unfold ConfidenceScorer.calculate_confidence ConfidenceScorer.confidenceBody
  cases hs : ConfidenceScorer.score_structured_data {} info with
  | error e => simp
  | ok sq =>
    simp only []
    constructor
    · exact le_max_left _ _
    · exact max_le (by norm_num) (min_le_left _ _)

/-- Claim C2: for every library behaviour and every input string, the repair
cascade `parse_response` terminates with either a parsed value or `none`
(it is a total function; the only raising library call, `json.loads`, is
caught), and empty or whitespace-only input yields `none`. -/
theorem parse_response_total (env : JPEnv) (s : String) :
    (JSONParser.parse_response env s = Option.none ∨
      ∃ v, JSONParser.parse_response env s = Option.some v) ∧
      (pyStrip s = "" → JSONParser.parse_response env s = Option.none) := by
  constructor
  · cases h : JSONParser.parse_response env s with
    | none => exact Or.inl rfl
    | some v => exact Or.inr ⟨v, rfl⟩
  · intro h
    unfold JSONParser.parse_response
    simp [h]

/-- Witness for C2 at the whitespace-only input. -/
theorem parse_response_total_witness :
    (pyStrip "  " = "") ∧ JSONParser.parse_response jpEnv0 "  " = Option.none :=
  ⟨by decide, (parse_response_total jpEnv0 "  ").2 (by decide)⟩

/-- If every attempt in the remaining schedule yields no value, the attempt
loop of `generate_structured_data` returns the safe fallback. -/
theorem genLoop_exhausted (env : LlmEnv) (schema : Option PyDict) (content : String)
    (l : List Nat) (h : ∀ i ∈ l, OllamaClient.attemptValue env schema i = Option.none) :
    OllamaClient.genLoop env schema content l =
      OllamaClient.create_safe_fallback (pyTake content 200) := by
  induction l with
  | nil => rfl
  | cons i rest ih =>
    have hi := h i (List.mem_cons_self i rest)
    have hrest : ∀ j ∈ rest, OllamaClient.attemptValue env schema j = Option.none :=
      fun j hj => h j (List.mem_cons_of_mem i hj)
    unfold OllamaClient.genLoop
    rw [hi]
    exact ih hrest

/-- Claim C3 (amended): when all of the Model Orchestrator's generation
attempts are exhausted without producing a valid structured value,
`generate_structured_data` returns (does not raise) the fixed safe-fallback
record: default-schema-shaped, every list and entity field empty, `category`
the sentinel `"unknown"` and `sentiment` `"neutral"`, `summary` embedding a
200-character preview of the input content, and `extraction_error: true`. -/
theorem generate_structured_data_exhausted (env : LlmEnv) (content : String)
    (cp : Option String) (schema : Option PyDict)
    (h : ∀ i, i < OllamaClient.retryAttempts →
      OllamaClient.attemptValue env schema i = Option.none) :
    OllamaClient.generate_structured_data env content cp schema =
      PyVal.dict [("summary",
          .str ("Content extraction failed. Preview: " ++ pyTake content 200 ++ "...")),
        ("topics", .list []), ("category", .str "unknown"), ("sentiment", .str "neutral"),
        ("entities", .dict [("people", .list []), ("organizations", .list []),
          ("locations", .list [])]),
        ("key_facts", .list []), ("important_dates", .list []), ("statistics", .list []),
        ("extraction_error", .bool true)] := by
  have hfall := genLoop_exhausted env schema content (List.range OllamaClient.retryAttempts)
    (fun i hi => h i (List.mem_range.mp hi))
  unfold OllamaClient.generate_structured_data
  rw [hfall]
  rfl

/-- Witness for the amended C3 at a concrete always-raising transport. -/
theorem generate_structured_data_exhausted_witness :
    (∀ i, i < OllamaClient.retryAttempts →
      OllamaClient.attemptValue llmEnvFail Option.none i = Option.none) ∧
    OllamaClient.generate_structured_data llmEnvFail "abc" Option.none Option.none =
      PyVal.dict [("summary",
          .str ("Content extraction failed. Preview: " ++ pyTake "abc" 200 ++ "...")),
        ("topics", .list []), ("category", .str "unknown"), ("sentiment", .str "neutral"),
        ("entities", .dict [("people", .list []), ("organizations", .list []),
          ("locations", .list [])]),
        ("key_facts", .list []), ("important_dates", .list []), ("statistics", .list []),
        ("extraction_error", .bool true)] :=
  ⟨fun _ _ => rfl,
    generate_structured_data_exhausted llmEnvFail "abc" Option.none Option.none
      (fun _ _ => rfl)⟩

/-- Membership under stable descending insertion. -/
theorem mem_insortDesc {α : Type} (key : α → Rat) (x y : α) (l : List α) :
    y ∈ insortDesc key x l ↔ y = x ∨ y ∈ l := by
  induction l with
  | nil => simp [insortDesc]
  | cons z zs ih =>
    unfold insortDesc
    by_cases h : key x > key z
    · rw [if_pos h]
      simp only [List.mem_cons]
    · rw [if_neg h]
      simp only [List.mem_cons, ih]
      tauto

/-- Stable descending insertion preserves descending sortedness. -/
theorem pairwise_insortDesc {α : Type} (key : α → Rat) (x : α) (l : List α)
    (hl : l.Pairwise (fun a b => key b ≤ key a)) :
    (insortDesc key x l).Pairwise (fun a b => key b ≤ key a) := by
  induction l with
  | nil => simp [insortDesc]
  | cons z zs ih =>
    rw [List.pairwise_cons] at hl
    obtain ⟨hz, hzs⟩ := hl
    unfold insortDesc
    by_cases h : key x > key z
    · rw [if_pos h]
      refine List.Pairwise.cons ?_ (List.Pairwise.cons hz hzs)
      intro b hb
      rcases List.mem_cons.mp hb with rfl | hbzs
      · exact le_of_lt h
      · exact le_trans (hz b hbzs) (le_of_lt h)
    · rw [if_neg h]
      refine List.Pairwise.cons ?_ (ih hzs)
      intro b hb
      rcases (mem_insortDesc key x b zs).mp hb with rfl | hbzs
      · exact not_lt.mp h
      · exact hz b hbzs

/-- Sorting with `sortDesc` permutes membership. -/
theorem mem_sortDesc {α : Type} (key : α → Rat) (l : List α) (y : α) :
    y ∈ sortDesc key l ↔ y ∈ l := by
  induction l with
  | nil => simp [sortDesc]
  | cons z zs ih =>
    unfold sortDesc
    rw [mem_insortDesc]
    simp [ih, List.mem_cons]

/-- Sorting with `sortDesc` yields a list descending by key. -/
theorem sortDesc_pairwise {α : Type} (key : α → Rat) (l : List α) :
    (sortDesc key l).Pairwise (fun a b => key b ≤ key a) := by
  induction l with
  | nil => simp [sortDesc]
  | cons z zs ih => exact pairwise_insortDesc key z _ ih

/-- The head of the descending sort is a maximal element of the input. -/
theorem sortDesc_head_max {α : Type} (key : α → Rat) (l : List α) (c : α)
    (rest : List α) (h : sortDesc key l = c :: rest) :
    c ∈ l ∧ ∀ y ∈ l, key y ≤ key c := by
  constructor
  · have hc : c ∈ sortDesc key l := h ▸ List.mem_cons_self c rest
    exact (mem_sortDesc key l c).mp hc
  · intro y hy
    have hm : y ∈ sortDesc key l := (mem_sortDesc key l y).mpr hy
    rw [h] at hm
    rcases List.mem_cons.mp hm with rfl | hr
    · exact le_refl _
    · have hp := sortDesc_pairwise key l
      rw [h, List.pairwise_cons] at hp
      exact hp.1 y hr

/-- The guard `lengthGuard` returns a value or raises only `ContentTooLargeError`. -/
theorem okOrCTL_lengthGuard (cfg : ScrapingCfg) (text : String) :
    okOrCTL (ContentExtractor.lengthGuard cfg text) := by
  unfold ContentExtractor.lengthGuard
  split
  · rfl
  · trivial

/-- The cleaner `_clean_text_from_element` returns a value or raises only
`ContentTooLargeError`. -/
theorem okOrCTL_clean (cfg : ScrapingCfg) (el : HNode) :
    okOrCTL (ContentExtractor.clean_text_from_element cfg el) := by
  unfold ContentExtractor.clean_text_from_element
  exact okOrCTL_lengthGuard cfg _

/-- The step `addCandidate` returns a value or raises only `ContentTooLargeError`. -/
theorem okOrCTL_addCandidate (cfg : ScrapingCfg) (acc : List (Nat × String)) (el : HNode) :
    okOrCTL (ContentExtractor.addCandidate cfg acc el) := by
  unfold ContentExtractor.addCandidate
  cases h : ContentExtractor.clean_text_from_element cfg el with
  | error e =>
    have hc := okOrCTL_clean cfg el
    rw [h] at hc
    simp only [h]
    exact hc
  | ok content =>
    simp only [h]
    trivial

/-- The step equation of the candidate loop. -/
theorem candLoop_cons_eq (cfg : ScrapingCfg) (el : HNode) (els : List HNode)
    (acc : List (Nat × String)) :
    ContentExtractor.candLoop cfg (el :: els) acc =
      match ContentExtractor.addCandidate cfg acc el with
      | .error e => .error e
      | .ok acc2 => ContentExtractor.candLoop cfg els acc2 := rfl

/-- The candidate loop returns a value or raises only `ContentTooLargeError`. -/
theorem okOrCTL_candLoop (cfg : ScrapingCfg) (els : List HNode)
    (acc : List (Nat × String)) : okOrCTL (ContentExtractor.candLoop cfg els acc) := by
  induction els generalizing acc with
  | nil => trivial
  | cons el els ih =>
    rw [candLoop_cons_eq]
    cases h : ContentExtractor.addCandidate cfg acc el with
    | error e =>
      have hc := okOrCTL_addCandidate cfg acc el
      rw [h] at hc
      simp only [h]
      exact hc
    | ok acc' =>
      simp only [h]
      exact ih acc'

/-- Collection via `semanticCandidates` returns a value or raises only
`ContentTooLargeError`. -/
theorem okOrCTL_semanticCandidates (cfg : ScrapingCfg) (soup : HNode) :
    okOrCTL (ContentExtractor.semanticCandidates cfg soup) := by
  unfold ContentExtractor.semanticCandidates
  cases h : ContentExtractor.candLoop cfg (ContentExtractor.semanticElems soup) [] with
  | error e =>
    have hc := okOrCTL_candLoop cfg (ContentExtractor.semanticElems soup) []
    rw [h] at hc
    simp only [h]
    exact hc
  | ok c1 =>
    simp only [h]
    exact okOrCTL_candLoop cfg (ContentExtractor.patternElems soup) c1

/-- The semantic pass returns a value or raises only `ContentTooLargeError`. -/
theorem okOrCTL_semantic (cfg : ScrapingCfg) (soup : HNode) :
    okOrCTL (ContentExtractor.extract_semantic_content cfg soup) := by
  unfold ContentExtractor.extract_semantic_content
  cases h : ContentExtractor.semanticCandidates cfg soup with
  | error e =>
    have hc := okOrCTL_semanticCandidates cfg soup
    rw [h] at hc
    simp only [h]
    exact hc
  | ok cands =>
    simp only [h]
    cases hs : sortDesc (fun p => (p.1 : Rat)) cands with
    | nil =>
      simp only [hs]
      trivial
    | cons c rest =>
      simp only [hs]
      trivial

/-- The fallback `_extract_body_text` returns a value or raises only
`ContentTooLargeError`. -/
theorem okOrCTL_bodyText (cfg : ScrapingCfg) (body : HNode) :
    okOrCTL (ContentExtractor.extract_body_text cfg body) := by
  unfold ContentExtractor.extract_body_text
  exact okOrCTL_lengthGuard cfg _

/-- The density fallback returns a value or raises only
`ContentTooLargeError`. -/
theorem okOrCTL_blocks (cfg : ScrapingCfg) (soup : HNode) :
    okOrCTL (ContentExtractor.extract_content_blocks cfg soup) := by
  unfold ContentExtractor.extract_content_blocks
  split
  · exact okOrCTL_clean cfg _
  · exact okOrCTL_bodyText cfg _

/-- The whole selection returns a value or raises only
`ContentTooLargeError`. -/
theorem okOrCTL_select (cfg : ScrapingCfg) (soup : HNode) :
    okOrCTL (ContentExtractor.selectMainContent cfg soup) := by
  unfold ContentExtractor.selectMainContent
  cases h : ContentExtractor.extract_semantic_content cfg soup with
  | error e =>
    have hc := okOrCTL_semantic cfg soup
    rw [h] at hc
    simp only [h]
    exact hc
  | ok mc =>
    simp only [h]
    by_cases hl : mc.length < 100
    · simp only [if_pos hl]
      exact okOrCTL_blocks cfg soup
    · simp only [if_neg hl]
      trivial

/-- Claim C6 (amended): for every parseable tree, the Content Selector either
returns a string or raises the content-too-large error — no other exception —
and when neither pass finds a viable candidate it returns the empty string.
(The unamended claim, that it never throws even for oversized text, is false:
see the counterexample.) -/
theorem select_never_raises_other_than_content_too_large (cfg : ScrapingCfg)
    (soup : HNode) :
    ((∃ s, ContentExtractor.selectMainContent cfg soup = .ok s) ∨
      (∃ n l, ContentExtractor.selectMainContent cfg soup =
        .error (.contentTooLarge n l))) ∧
    (ContentExtractor.extract_semantic_content cfg soup = .ok "" →
      ContentExtractor.extract_content_blocks cfg soup = .ok "" →
      ContentExtractor.selectMainContent cfg soup = .ok "") := by
  constructor
  · have h := okOrCTL_select cfg soup
    cases hr : ContentExtractor.selectMainContent cfg soup with
    | ok s => exact Or.inl ⟨s, rfl⟩
    | error e =>
      rw [hr] at h
      cases e with
      | contentTooLarge n l => exact Or.inr ⟨n, l, rfl⟩
      | extractionError m => simp [okOrCTL, ScrapeErr.isCTL] at h
      | scrapingError m => simp [okOrCTL, ScrapeErr.isCTL] at h
      | invalidUrl m => simp [okOrCTL, ScrapeErr.isCTL] at h
  · intro h1 h2
    simp [ContentExtractor.selectMainContent, h1, h2]

/-- Witness for the amended C6 at the empty document. -/
theorem select_never_raises_witness :
    ContentExtractor.extract_semantic_content {} soupEmptyDoc = .ok "" ∧
    ContentExtractor.extract_content_blocks {} soupEmptyDoc = .ok "" ∧
    ContentExtractor.selectMainContent {} soupEmptyDoc = .ok "" :=
  ⟨rfl, rfl,
    (select_never_raises_other_than_content_too_large {} soupEmptyDoc).2 rfl rfl⟩

/-- Claim C6 counterexample: with a configured maximum content length of 10,
a parseable tree whose `main` element carries 60 characters makes the
Content Selector raise `ContentTooLargeError` instead of returning. -/
theorem select_raises_content_too_large_cex :
    ContentExtractor.selectMainContent { max_content_length := 10 } soupOversize =
      .error (.contentTooLarge 60 10) := rfl

/-- Claim C7: among all semantic-tag and content-pattern candidates whose
cleaned text exceeds 50 characters, the semantic pass returns the text of a
longest candidate, and when one candidate is strictly longest it is the one
returned. -/
theorem semantic_pass_longest (cfg : ScrapingCfg) (soup : HNode)
    (cands : List (Nat × String))
    (h : ContentExtractor.semanticCandidates cfg soup = .ok cands)
    (hne : cands ≠ []) :
    ∃ n t, ContentExtractor.extract_semantic_content cfg soup = .ok t ∧
      (n, t) ∈ cands ∧ (∀ p ∈ cands, p.1 ≤ n) ∧
      ∀ m u, (m, u) ∈ cands → (∀ p ∈ cands, p ≠ (m, u) → p.1 < m) → t = u := by
  cases hs : sortDesc (fun p => ((p.1 : Nat) : Rat)) cands with
  | nil =>
    exfalso
    apply hne
    cases hc : cands with
    | nil => rfl
    | cons c cs =>
      have hm : c ∈ sortDesc (fun p => ((p.1 : Nat) : Rat)) cands :=
        (mem_sortDesc _ cands c).mpr (hc ▸ List.mem_cons_self c cs)
      rw [hs] at hm
      cases hm
  | cons c rest =>
    obtain ⟨hcmem, hmax⟩ := sortDesc_head_max (fun p => ((p.1 : Nat) : Rat)) cands c rest hs
    refine ⟨c.1, c.2, ?_, ?_, ?_, ?_⟩
    · simp [ContentExtractor.extract_semantic_content, h, hs]
    · exact hcmem
    · intro p hp
      exact_mod_cast hmax p hp
    · intro m u hmu hstrict
      by_cases hceq : c = (m, u)
      · rw [hceq]
      · have h1 : c.1 < m := hstrict c hcmem hceq
        have h2 : ((m : Nat) : Rat) ≤ ((c.1 : Nat) : Rat) := hmax (m, u) hmu
        have h3 : m ≤ c.1 := by exact_mod_cast h2
        omega

/-- Witness for C7 at concrete scenario B of the spec: a `main` of 40
characters and a `div class="article-content"` of 600 characters — the
600-character block is returned. -/
theorem semantic_pass_longest_witness :
    ContentExtractor.extract_semantic_content {} scenarioB = .ok strArt600 ∧
    ContentExtractor.semanticCandidates {} scenarioB =
      .ok [(600, strArt600), (600, strArt600)] ∧
    (∃ n t, ContentExtractor.extract_semantic_content {} scenarioB = .ok t ∧
      (n, t) ∈ [(600, strArt600), (600, strArt600)] ∧
      (∀ p ∈ [(600, strArt600), (600, strArt600)], p.1 ≤ n) ∧
      ∀ m u, (m, u) ∈ [(600, strArt600), (600, strArt600)] →
        (∀ p ∈ [(600, strArt600), (600, strArt600)], p ≠ (m, u) → p.1 < m) → t = u) :=
  ⟨rfl, rfl,
    semantic_pass_longest {} scenarioB [(600, strArt600), (600, strArt600)] rfl
      (by simp)⟩

/-- Claim C3 counterexample: the terminal safe fallback is not
"all empty fields" — at a concrete exhausted run, `category` is the non-empty
sentinel `"unknown"` and `sentiment` the non-empty `"neutral"`. -/
theorem generate_structured_data_fallback_not_empty :
    pyGetField (OllamaClient.generate_structured_data llmEnvFail "hello" Option.none Option.none)
        "category" = Option.some (.str "unknown") ∧
    pyGetField (OllamaClient.generate_structured_data llmEnvFail "hello" Option.none Option.none)
        "sentiment" = Option.some (.str "neutral") ∧
    PyVal.str "unknown" ≠ PyVal.str "" ∧ PyVal.str "neutral" ≠ PyVal.str "" :=
  ⟨rfl, rfl,
    fun hcon => absurd (PyVal.str.inj hcon) (by decide),
    fun hcon => absurd (PyVal.str.inj hcon) (by decide)⟩

/-- Claim C1: for every collaborator behaviour, cache state and URL,
`extract` returns a record (it is total); and whenever a downstream typed
error is raised, the record is the degraded one whose `structured_info.error`
carries the boundary message and whose confidence is 0.0, with the cache left
untouched. -/
theorem extract_total_error_boundary (env : ExtractorEnv) (cache : Cache)
    (url : String) (schema : Option PyDict) (fr : Bool) :
    (∃ r c2, DataExtractor.extractBody env cache url schema fr = .ok (r, c2) ∧
      DataExtractor.extract env cache url schema fr = (r, c2)) ∨
    (∃ e, DataExtractor.extractBody env cache url schema fr = .error e ∧
      DataExtractor.extract env cache url schema fr =
        (DataExtractor.create_error_result env url (boundaryMessage e), cache) ∧
      alGet? (DataExtractor.create_error_result env url (boundaryMessage e)).structured_info
        "error" = Option.some (.str (boundaryMessage e)) ∧
      (DataExtractor.create_error_result env url (boundaryMessage e)).confidence = 0) := by
  cases h : DataExtractor.extractBody env cache url schema fr with
  | ok rc =>
    refine Or.inl ⟨rc.1, rc.2, rfl, ?_⟩
    unfold DataExtractor.extract
    rw [h]
  | error e =>
    refine Or.inr ⟨e, rfl, ?_, rfl, rfl⟩
    unfold DataExtractor.extract
    rw [h]

/-- Lookup after `alSet` at a different key is unchanged. -/
theorem alGet?_alSet_ne {α : Type} (k k' : String) (v : α) (h : k' ≠ k) :
    ∀ l : List (String × α), alGet? (alSet l k v) k' = alGet? l k' := by
  intro l
  induction l with
  | nil =>
    simp only [alSet, alGet?]
    rw [if_neg (fun hc : k = k' => h hc.symm)]
  | cons q rest ih =>
    obtain ⟨k0, v0⟩ := q
    simp only [alSet]
    by_cases hk : k0 = k
    · rw [if_pos hk]
      simp only [alGet?]
      rw [if_neg (fun hc : k = k' => h hc.symm),
        if_neg (fun hc : k0 = k' => h (hk ▸ hc).symm)]
    · rw [if_neg hk]
      simp only [alGet?]
      by_cases hp : k0 = k'
      · rw [if_pos hp, if_pos hp]
      · rw [if_neg hp, if_neg hp]
        exact ih

/-- Insertion via `alSet` preserves the cache invariant when the inserted record
satisfies it. -/
theorem cacheInv_alSet (url : String) (r : StructuredData)
    (hr : (3/10 : Rat) < r.confidence) :
    ∀ cache : Cache, cacheInv cache → cacheInv (alSet cache url r) := by
  intro cache
  induction cache with
  | nil =>
    intro _ p hp
    simp only [alSet] at hp
    rcases List.mem_cons.mp hp with rfl | hm
    · exact hr
    · cases hm
  | cons q rest ih =>
    intro hc p hp
    have hq : (3/10 : Rat) < q.2.confidence := hc q (List.mem_cons_self q rest)
    have hrest : cacheInv rest := fun z hz => hc z (List.mem_cons_of_mem q hz)
    obtain ⟨k0, v0⟩ := q
    simp only [alSet] at hp
    by_cases hk : k0 = url
    · rw [if_pos hk] at hp
      rcases List.mem_cons.mp hp with rfl | hm
      · exact hr
      · exact hrest p hm
    · rw [if_neg hk] at hp
      rcases List.mem_cons.mp hp with rfl | hm
      · exact hq
      · exact ih hrest p hm


/-- On the success path, `extractBody` either leaves the cache unchanged or
overwrites the entry for the extracted URL with the returned record, and then
only when its confidence exceeds 0.3. -/
theorem extractBody_cache (env : ExtractorEnv) (cache : Cache) (url : String)
    (schema : Option PyDict) (fr : Bool) (r : StructuredData) (c2 : Cache)
    (h : DataExtractor.extractBody env cache url schema fr = .ok (r, c2)) :
    c2 = cache ∨ (c2 = alSet cache url r ∧ (3/10 : Rat) < r.confidence) := by
  unfold DataExtractor.extractBody at h
  by_cases hv : !DataExtractor.validate_url env url
  · rw [if_pos hv] at h
    simp at h
  · rw [if_neg hv] at h
    cases hcache : (if !fr then alGet? cache url else Option.none) with
    | some rc =>
      simp only [hcache] at h
      simp only [Except.ok.injEq, Prod.mk.injEq] at h
      exact Or.inl h.2.symm
    | none =>
      simp only [hcache] at h
      cases hav : env.isModelAvailable with
      | error m =>
        simp only [hav] at h
        simp at h
      | ok avail =>
        simp only [hav] at h
        by_cases ha : !avail
        · rw [if_pos ha] at h
          simp at h
        · rw [if_neg ha] at h
          cases hs : DataExtractor.scrape_content env url with
          | error e =>
            simp only [hs] at h
            simp at h
          | ok copt =>
            cases copt with
            | none =>
              simp only [hs] at h
              simp at h
            | some content =>
              simp only [hs] at h
              cases hl : DataExtractor.processWithLlmBoundary env content schema with
              | error e =>
                simp only [hl] at h
                simp at h
              | ok info =>
                simp only [hl] at h
                simp only [Except.ok.injEq, Prod.mk.injEq] at h
                obtain ⟨hr, hc2⟩ := h
                by_cases hconf :
                    ConfidenceScorer.calculate_confidence env.confCfg content info > 3/10
                · right
                  rw [if_pos hconf] at hc2
                  exact ⟨hr ▸ hc2.symm, hr ▸ hconf⟩
                · left
                  rw [if_neg hconf] at hc2
                  exact hc2.symm

/-- The operation `extract` either leaves the cache unchanged or overwrites the entry for
its URL with a record of confidence above 0.3. -/
theorem extract_cache_change (env : ExtractorEnv) (cache : Cache) (url : String)
    (schema : Option PyDict) (fr : Bool) :
    (DataExtractor.extract env cache url schema fr).2 = cache ∨
    ∃ r, (DataExtractor.extract env cache url schema fr).2 = alSet cache url r ∧
      (3/10 : Rat) < r.confidence := by
  unfold DataExtractor.extract
  cases h : DataExtractor.extractBody env cache url schema fr with
  | error e => exact Or.inl rfl
  | ok rc =>
    obtain ⟨r0, c0⟩ := rc
    rcases extractBody_cache env cache url schema fr r0 c0 h with hc | ⟨hc, hconf⟩
    · exact Or.inl hc
    · exact Or.inr ⟨r0, hc, hconf⟩

/-- Claim C9: the cache invariant — every cached entry has confidence above
0.3 — is preserved by `extract` (which inserts only records above the
threshold, overwriting in place and touching no other key) and by
`clear_cache` (which empties the cache). -/
theorem cache_confidence_invariant (env : ExtractorEnv) (cache : Cache) (url : String)
    (schema : Option PyDict) (fr : Bool) (h : cacheInv cache) :
    cacheInv (DataExtractor.extract env cache url schema fr).2 ∧
    (∀ k, k ≠ url →
      alGet? (DataExtractor.extract env cache url schema fr).2 k = alGet? cache k) ∧
    ((DataExtractor.extract env cache url schema fr).2 = cache ∨
      ∃ r, (DataExtractor.extract env cache url schema fr).2 = alSet cache url r ∧
        (3/10 : Rat) < r.confidence) ∧
    cacheInv (DataExtractor.clear_cache cache) := by
  rcases extract_cache_change env cache url schema fr with hc | ⟨r, hc, hconf⟩
  · exact ⟨by rw [hc]; exact h, fun k _ => by rw [hc], Or.inl hc,
      fun p hp => absurd hp (List.not_mem_nil p)⟩
  · exact ⟨by rw [hc]; exact cacheInv_alSet url r hconf cache h,
      fun k hk => by rw [hc]; exact alGet?_alSet_ne url k r hk cache,
      Or.inr ⟨r, hc, hconf⟩, fun p hp => absurd hp (List.not_mem_nil p)⟩

/-- Witness for C9 at the empty cache and a concrete environment. -/
theorem cache_confidence_invariant_witness :
    cacheInv ([] : Cache) ∧
    (cacheInv (DataExtractor.extract extractorEnvStub [] "http://x" Option.none false).2 ∧
      (∀ k, k ≠ "http://x" →
        alGet? (DataExtractor.extract extractorEnvStub [] "http://x" Option.none false).2 k =
          alGet? ([] : Cache) k) ∧
      ((DataExtractor.extract extractorEnvStub [] "http://x" Option.none false).2 =
          ([] : Cache) ∨
        ∃ r, (DataExtractor.extract extractorEnvStub [] "http://x" Option.none false).2 =
          alSet ([] : Cache) "http://x" r ∧ (3/10 : Rat) < r.confidence) ∧
      cacheInv (DataExtractor.clear_cache ([] : Cache))) :=
  ⟨fun p hp => absurd hp (List.not_mem_nil p),
    cache_confidence_invariant extractorEnvStub [] "http://x" Option.none false
      (fun p hp => absurd hp (List.not_mem_nil p))⟩

/-- The batch worker loop yields one slot per URL, in order, holding exactly
the record `extract` returns for that URL with the then-current cache. -/
theorem extract_batch_go_spec (env : ExtractorEnv) (schema : Option PyDict)
    (urls : List String) : ∀ cache : Cache,
    (DataExtractor.extract_batch_go env schema cache urls).length = urls.length ∧
    ∀ (i : Nat) (u : String), urls[i]? = Option.some u →
      ∃ c2, (DataExtractor.extract_batch_go env schema cache urls)[i]? =
        Option.some (Option.some (DataExtractor.extract env c2 u schema false).1) := by
  induction urls with
  | nil =>
    intro cache
    exact ⟨rfl, fun i u hu => by simp at hu⟩
  | cons url rest ih =>
    intro cache
    constructor
    · simp only [DataExtractor.extract_batch_go, List.length_cons]
      rw [(ih _).1]
    · intro i u hu
      cases i with
      | zero =>
        simp only [List.getElem?_cons_zero, Option.some.injEq] at hu
        subst hu
        exact ⟨cache, by simp [DataExtractor.extract_batch_go]⟩
      | succ n =>
        simp only [List.getElem?_cons_succ] at hu
        obtain ⟨c2, hc2⟩ :=
          (ih (DataExtractor.extract env cache url schema false).2).2 n u hu
        exact ⟨c2, by simpa [DataExtractor.extract_batch_go] using hc2⟩

/-- Claim C8 (amended): `extract_batch` returns exactly N slots preserving
input ordering, and every slot — failed URLs included — holds the (non-null)
record `extract` returned for that URL; a null slot would require `extract`
itself to raise, which it never does. -/
theorem extract_batch_slots (env : ExtractorEnv) (cache : Cache)
    (urls : List String) (schema : Option PyDict) :
    (DataExtractor.extract_batch env cache urls schema).length = urls.length ∧
    ∀ (i : Nat) (u : String), urls[i]? = Option.some u →
      ∃ c2, (DataExtractor.extract_batch env cache urls schema)[i]? =
        Option.some (Option.some (DataExtractor.extract env c2 u schema false).1) :=
  extract_batch_go_spec env schema urls cache

/-- Witness for the amended C8 at a singleton batch. -/
theorem extract_batch_slots_witness :
    (["http://a"][0]? = Option.some "http://a") ∧
    (∃ c2, (DataExtractor.extract_batch extractorEnvStub [] ["http://a"] Option.none)[0]? =
      Option.some (Option.some (DataExtractor.extract extractorEnvStub c2 "http://a"
        Option.none false).1)) :=
  ⟨rfl, (extract_batch_slots extractorEnvStub [] ["http://a"] Option.none).2 0 "http://a" rfl⟩

/-- A lookup at a key different from the extracted URL is unchanged by
`extract`. -/
theorem alGet?_extract_ne (env : ExtractorEnv) (cache : Cache) (url : String)
    (schema : Option PyDict) (fr : Bool) (k : String) (hk : k ≠ url) :
    alGet? (DataExtractor.extract env cache url schema fr).2 k = alGet? cache k := by
  rcases extract_cache_change env cache url schema fr with hc | ⟨r, hc, _⟩
  · rw [hc]
  · rw [hc]
    exact alGet?_alSet_ne url k r hk cache

/-- Under the scenario-E collaborators, extracting `http://u3` with any cache
missing that key returns the timeout error record and leaves the cache
untouched. -/
theorem extract_u3_error (c : Cache) (h : alGet? c "http://u3" = Option.none) :
    DataExtractor.extract envBatch c "http://u3" Option.none false =
      (DataExtractor.create_error_result envBatch "http://u3"
        "Timeout while fetching page", c) := by
  unfold DataExtractor.extract DataExtractor.extractBody
  simp [h, DataExtractor.validate_url, envBatch, DataExtractor.scrape_content,
    boundaryMessage, ExtractErr.message]

/-- Claim C8 counterexample, concrete scenario E: in a batch of 5 URLs where
URL 3's fetch always times out, slot index 2 holds a confidence-zero error
record, not null. -/
theorem extract_batch_failed_slot_not_null_cex :
    ((DataExtractor.extract_batch envBatch [] urls5 Option.none).length = 5) ∧
    ((DataExtractor.extract_batch envBatch [] urls5 Option.none)[2]? =
      Option.some (Option.some (DataExtractor.create_error_result envBatch "http://u3"
        "Timeout while fetching page"))) ∧
    (DataExtractor.extract_batch envBatch [] urls5 Option.none)[2]? ≠
      Option.some Option.none := by
  have h1 : alGet? (DataExtractor.extract envBatch [] "http://u1" Option.none false).2
      "http://u3" = Option.none := by
    rw [alGet?_extract_ne envBatch [] "http://u1" Option.none false "http://u3" (by decide)]
    rfl
  have h2 : alGet? (DataExtractor.extract envBatch
        (DataExtractor.extract envBatch [] "http://u1" Option.none false).2
        "http://u2" Option.none false).2 "http://u3" = Option.none := by
    rw [alGet?_extract_ne envBatch _ "http://u2" Option.none false "http://u3" (by decide)]
    exact h1
  have hslot : (DataExtractor.extract_batch envBatch [] urls5 Option.none)[2]? =
      Option.some (Option.some (DataExtractor.extract envBatch
        (DataExtractor.extract envBatch
          (DataExtractor.extract envBatch [] "http://u1" Option.none false).2
          "http://u2" Option.none false).2 "http://u3" Option.none false).1) := by
    simp [DataExtractor.extract_batch, DataExtractor.extract_batch_go, urls5]
  rw [extract_u3_error _ h2] at hslot
  refine ⟨?_, hslot, ?_⟩
  · simp [DataExtractor.extract_batch, DataExtractor.extract_batch_go, urls5]
  · rw [hslot]
    simp

end WebExtract
